import Mathlib

/-!
Verification of the mortgage prepayment calculator (`mortgage_agent`).

The Python modules `calculator.py`, `api.py` and `report.py` are shallowly
embedded below.  Python floats are modelled as exact rationals (`ℚ`), Python
ints as `Int` (list positions as `Nat`), fallible functions return `Except`,
and `None`-able values are `Option`s.  Every definition follows the source
line by line; theorems about the embedding follow after the definitions.
-/

namespace Mortgage

/-- Row of a repayment schedule (`calculator.ScheduleRow`). -/
structure ScheduleRow where
  month_index : Nat
  payment : ℚ
  principal : ℚ
  interest : ℚ
  balance : ℚ
  deriving DecidableEq, Repr

/-- Constant `METHOD_ANNUITY` from `calculator.py`. -/
def METHOD_ANNUITY : String := "equal_payment"

/-- Constant `METHOD_EQUAL_PRINCIPAL` from `calculator.py`. -/
def METHOD_EQUAL_PRINCIPAL : String := "equal_principal"

/-- Calendar date; models `datetime.date` (only the fields the code reads). -/
structure Date where
  year : Int
  month : Int
  day : Int
  deriving DecidableEq, Repr

/-- Loan input parameters (`calculator.LoanParams`). -/
structure LoanParams where
  principal : ℚ
  annual_rate : ℚ
  term_months : Int
  method : String
  paid_periods : Option Int := some 0
  first_payment_date : Option Date := none
  deriving DecidableEq, Repr

/-- Prepayment input (`calculator.Prepayment`). -/
structure Prepayment where
  amount : ℚ
  invest_annual_rate : Option ℚ := none
  deriving DecidableEq, Repr

/-- Conversion of an annual percentage rate to a monthly fractional rate
(`calculator.monthly_rate`). -/
def monthly_rate (annual_rate : ℚ) : ℚ := annual_rate / 100 / 12

/-- Fixed monthly payment of an annuity loan (`calculator.annuity_payment`). -/
def annuity_payment (principal rate : ℚ) (months : Int) : ℚ :=
  if months ≤ 0 then 0
  else if rate = 0 then principal / (months : ℚ)
  else
    let factor : ℚ := (1 + rate) ^ months.toNat
    principal * rate * factor / (factor - 1)

/-- Model of Python's `str.strip().lower()`: drop surrounding whitespace,
then lower-case every character. -/
def py_strip_lower (s : String) : String :=
  ⟨(((s.data.dropWhile (·.isWhitespace)).reverse.dropWhile
      (·.isWhitespace)).reverse).map Char.toLower⟩

/-- Normalisation and validation of the repayment-method string
(`calculator.normalize_method`); raising `ValueError` is modelled as
`Except.error`. -/
def normalize_method (method : String) : Except String String :=
  if method = "" then Except.error "repayment method is required"
  else
    let normalized := py_strip_lower method
    if normalized = "annuity" ∨ normalized = "equal_payment" ∨
        normalized = "equal_installment" then Except.ok METHOD_ANNUITY
    else if normalized = "equal_principal" ∨ normalized = "principal" then
      Except.ok METHOD_EQUAL_PRINCIPAL
    else Except.error ("unsupported repayment method: " ++ method)

/-- Resolution of the number of already-paid periods
(`calculator.compute_paid_periods`); the `today` argument is explicit. -/
def compute_paid_periods (params : LoanParams) (today : Date) : Int :=
  match params.paid_periods with
  | some p => min (max p 0) params.term_months
  | none =>
    match params.first_payment_date with
    | none => 0
    | some fp =>
      let months := (today.year - fp.year) * 12 + (today.month - fp.month)
      let months := if today.day < fp.day then months - 1 else months
      min (max months 0) params.term_months

/-- Loop body of the equal-principal branch of `calculator.build_schedule`:
`n` iterations remain, `balance` is the running balance and `i` the next
month index. -/
def epRows (part rate : ℚ) : Nat → ℚ → Nat → List ScheduleRow
  | 0, _, _ => []
  | n + 1, balance, i =>
    let interest := balance * rate
    let principal_payment := min part balance
    let payment := principal_payment + interest
    let balance2 := balance - principal_payment
    ⟨i, payment, principal_payment, interest, balance2⟩ ::
      epRows part rate n balance2 (i + 1)

/-- Loop body of the annuity branch of `calculator.build_schedule`. -/
def annuityRows (payment rate : ℚ) : Nat → ℚ → Nat → List ScheduleRow
  | 0, _, _ => []
  | n + 1, balance, i =>
    let interest := balance * rate
    let principal_payment := min (payment - interest) balance
    let payment_effective := principal_payment + interest
    let balance2 := balance - principal_payment
    ⟨i, payment_effective, principal_payment, interest, balance2⟩ ::
      annuityRows payment rate n balance2 (i + 1)

/-- Full (or remaining) repayment schedule (`calculator.build_schedule`). -/
def build_schedule (principal rate : ℚ) (months : Int) (method : String) :
    List ScheduleRow :=
  if months ≤ 0 ∨ principal ≤ 0 then []
  else if method = METHOD_EQUAL_PRINCIPAL then
    epRows (principal / (months : ℚ)) rate months.toNat principal 1
  else
    annuityRows (annuity_payment principal rate months) rate months.toNat
      principal 1

/-- Loop body of `calculator.build_fixed_payment_schedule`: the loop breaks
when the payment no longer covers the interest or the balance is cleared. -/
def fpRows (payment rate : ℚ) : Nat → ℚ → Nat → List ScheduleRow
  | 0, _, _ => []
  | n + 1, balance, i =>
    let interest := balance * rate
    let raw := payment - interest
    if raw ≤ 0 then []
    else
      let principal_payment := min raw balance
      let payment_effective := principal_payment + interest
      let balance2 := balance - principal_payment
      let row : ScheduleRow := ⟨i, payment_effective, principal_payment,
        interest, balance2⟩
      if balance2 ≤ 0 then [row] else row :: fpRows payment rate n balance2 (i + 1)

/-- Fixed-payment (shorten-the-term) schedule
(`calculator.build_fixed_payment_schedule`). -/
def build_fixed_payment_schedule (principal rate payment : ℚ)
    (max_months : Int) : List ScheduleRow :=
  if principal ≤ 0 ∨ payment ≤ 0 then []
  else fpRows payment rate max_months.toNat principal 1

/-- Insertion-order-preserving accumulation into an association list; models
Python's `dict.get`/assignment pattern in `aggregate_interest_by_year`. -/
def addToYear : List (Nat × ℚ) → Nat → ℚ → List (Nat × ℚ)
  | [], year, v => [(year, v)]
  | (y, x) :: rest, year, v =>
    if y = year then (y, x + v) :: rest else (y, x) :: addToYear rest year v

/-- Per-loan-year interest totals (`calculator.aggregate_interest_by_year`). -/
def aggregate_interest_by_year (schedule : List ScheduleRow) :
    List (Nat × ℚ) :=
  schedule.foldl
    (fun acc row => addToYear acc ((row.month_index - 1) / 12 + 1) row.interest)
    []

/-- Suffix interest-over-payment quotient used by
`calculator.find_critical_point`; a zero suffix payment yields `0` exactly as
`suffix_interest[i] / suffix_payment[i] if suffix_payment[i] else 0.0`. -/
def suffix_frac (s : List ScheduleRow) : ℚ :=
  let sp := (s.map (·.payment)).sum
  if sp = 0 then 0 else (s.map (·.interest)).sum / sp

/-- Critical-point scan (`calculator.find_critical_point`): the first row
whose monthly interest is below its principal portion, or whose suffix
interest share is below 10%, wins. -/
def find_critical_point : List ScheduleRow → Option Nat × Option String
  | [] => (none, none)
  | row :: rest =>
    if row.interest < row.principal then
      (some row.month_index, some "monthly_interest_below_principal")
    else if suffix_frac (row :: rest) < 1 / 10 then
      (some row.month_index, some "remaining_interest_below_10_percent")
    else find_critical_point rest

/-- Simulation summary (`calculator.SimulationResult`). -/
structure SimulationResult where
  paid_periods : Int
  remaining_months : Nat
  remaining_principal : ℚ
  original_monthly_payment : ℚ
  reduced_monthly_payment : ℚ
  shorten_months : Nat
  base_remaining_interest : ℚ
  reduced_remaining_interest : ℚ
  shorten_remaining_interest : ℚ
  savings_reduce : ℚ
  savings_shorten : ℚ
  base_schedule : List ScheduleRow
  reduced_schedule : List ScheduleRow
  shorten_schedule : List ScheduleRow
  interest_by_year : List (Nat × ℚ)
  critical_month_index : Option Nat
  critical_reason : Option String
  deriving DecidableEq, Repr

/-- All-zero result returned by `simulate` for structurally invalid input
(`principal <= 0 or term_months <= 0`). -/
def zeroResult : SimulationResult :=
  ⟨0, 0, 0, 0, 0, 0, 0, 0, 0, 0, 0, [], [], [], [], none, none⟩

/-- Result returned by `simulate` when the loan is already paid off
(remaining months or principal exhausted): all zero except `paid_periods`. -/
def paidOffResult (paid : Int) : SimulationResult :=
  ⟨paid, 0, 0, 0, 0, 0, 0, 0, 0, 0, 0, [], [], [], [], none, none⟩

/-- Paid periods as resolved inside `simulate` (line
`paid_periods = compute_paid_periods(params)`). -/
def sim_paid (params : LoanParams) (today : Date) : Int :=
  compute_paid_periods params today

/-- Full base schedule built inside `simulate`
(`build_schedule(params.principal, rate, params.term_months, method)`). -/
def sim_full (params : LoanParams) (method : String) : List ScheduleRow :=
  build_schedule params.principal (monthly_rate params.annual_rate)
    params.term_months method

/-- Remaining part of the base schedule
(`base_schedule_full[paid_periods:]`). -/
def sim_base_remaining (params : LoanParams) (method : String) (today : Date) :
    List ScheduleRow :=
  (sim_full params method).drop (sim_paid params today).toNat

/-- Remaining principal as computed inside `simulate`: the full principal when
nothing is paid, otherwise the balance after the last paid period. -/
def sim_remaining_principal (params : LoanParams) (method : String)
    (today : Date) : ℚ :=
  if sim_paid params today ≤ 0 then params.principal
  else
    (((sim_full params method).get? ((sim_paid params today - 1).toNat)).map
      (·.balance)).getD 0

/-- Body of `calculator.simulate` after input validation and method
normalisation succeeded; `amount` is `prepayment.amount`. -/
def simulate_after (params : LoanParams) (method : String) (amount : ℚ)
    (today : Date) : SimulationResult :=
  let rate := monthly_rate params.annual_rate
  let paid := sim_paid params today
  let base_remaining := sim_base_remaining params method today
  let remaining_months := base_remaining.length
  let remaining_principal := sim_remaining_principal params method today
  let original_monthly_payment := ((base_remaining.head?).map (·.payment)).getD 0
  if remaining_months = 0 ∨ remaining_principal ≤ 0 then paidOffResult paid
  else
    let prepay_amount := min amount remaining_principal
    let new_principal := max (remaining_principal - prepay_amount) 0
    let reduced_schedule :=
      build_schedule new_principal rate (remaining_months : Int) method
    let reduced_monthly_payment :=
      ((reduced_schedule.head?).map (·.payment)).getD 0
    let shorten_schedule := build_fixed_payment_schedule new_principal rate
      original_monthly_payment (max (remaining_months : Int) 1 * 2)
    let base_remaining_interest := (base_remaining.map (·.interest)).sum
    let reduced_remaining_interest := (reduced_schedule.map (·.interest)).sum
    let shorten_remaining_interest := (shorten_schedule.map (·.interest)).sum
    { paid_periods := paid
      remaining_months := remaining_months
      remaining_principal := remaining_principal
      original_monthly_payment := original_monthly_payment
      reduced_monthly_payment := reduced_monthly_payment
      shorten_months := shorten_schedule.length
      base_remaining_interest := base_remaining_interest
      reduced_remaining_interest := reduced_remaining_interest
      shorten_remaining_interest := shorten_remaining_interest
      savings_reduce := base_remaining_interest - reduced_remaining_interest
      savings_shorten := base_remaining_interest - shorten_remaining_interest
      base_schedule := base_remaining
      reduced_schedule := reduced_schedule
      shorten_schedule := shorten_schedule
      interest_by_year := aggregate_interest_by_year base_remaining
      critical_month_index := (find_critical_point base_remaining).1
      critical_reason := (find_critical_point base_remaining).2 }

/-- Main simulation entry point (`calculator.simulate`); a `ValueError`
escaping from `normalize_method` is modelled as `Except.error`. -/
def simulate (params : LoanParams) (prepayment : Prepayment) (today : Date) :
    Except String SimulationResult :=
  if params.principal ≤ 0 ∨ params.term_months ≤ 0 then Except.ok zeroResult
  else
    match normalize_method params.method with
    | Except.error e => Except.error e
    | Except.ok method =>
      Except.ok (simulate_after params method prepayment.amount today)

/-- Placeholder combined row used by `api.export_combined_schedule` when one
leg's schedule is shorter (`ScheduleRow(idx + 1, 0, 0, 0, 0)`). -/
def zeroRowAt (idx : Nat) : ScheduleRow := ⟨idx + 1, 0, 0, 0, 0⟩

/-- Period-by-period sum of the two loan legs built by
`api.export_combined_schedule` (the `for idx in range(max_len)` loop). -/
def combined_rows (fund commercial : List ScheduleRow) : List ScheduleRow :=
  (List.range (max fund.length commercial.length)).map fun idx =>
    let f := (fund.get? idx).getD (zeroRowAt idx)
    let c := (commercial.get? idx).getD (zeroRowAt idx)
    ⟨idx + 1, f.payment + c.payment, f.principal + c.principal,
      f.interest + c.interest, f.balance + c.balance⟩

/-- Keyword parameters of `report.generate_pdf` (its signature is
keyword-only and none of the parameters has a default value). -/
def generate_pdf_required_kwargs : List String :=
  ["result", "prepayment", "output_dir", "original_principal",
    "original_annual_rate", "original_term_months", "original_method"]

/-- Keyword arguments that `api.export_zip` passes in its
`generate_pdf(...)` call. -/
def export_zip_generate_pdf_call_kwargs : List String :=
  ["result", "prepayment", "original_principal", "original_annual_rate",
    "original_term_months", "original_method"]

/-- Python call-binding check: a call succeeds only when every
required keyword-only parameter receives an argument. -/
def python_kwargs_call_ok (required provided : List String) : Bool :=
  required.all provided.contains

/-! ### Present-value machinery for the annuity recurrence -/

/-- Present value of `n` future unit payments at monthly rate `rate`,
written through the recurrence the amortisation loop follows. -/
def pvFactor (rate : ℚ) : Nat → ℚ
  | 0 => 0
  | n + 1 => (pvFactor rate n + 1) / (1 + rate)

lemma one_add_pos {r : ℚ} (hr : 0 ≤ r) : 0 < 1 + r := by linarith

lemma pvFactor_nonneg {r : ℚ} (hr : 0 ≤ r) : ∀ n, 0 ≤ pvFactor r n
  | 0 => le_refl 0
  | n + 1 => by
    have h := pvFactor_nonneg hr n
    have h1 := one_add_pos hr
    simp only [pvFactor]
    exact div_nonneg (by linarith) h1.le

lemma pvFactor_pos {r : ℚ} (hr : 0 ≤ r) (n : Nat) : 0 < pvFactor r (n + 1) := by
  have h := pvFactor_nonneg hr n
  have h1 := one_add_pos hr
  simp only [pvFactor]
  exact div_pos (by linarith) h1

lemma pvFactor_mul_rate_lt_one {r : ℚ} (hr : 0 ≤ r) :
    ∀ n, r * pvFactor r n < 1
  | 0 => by simp [pvFactor]
  | n + 1 => by
    have ih := pvFactor_mul_rate_lt_one hr n
    have h1 := one_add_pos hr
    simp only [pvFactor]
    rw [← mul_div_assoc, div_lt_one h1]
    linarith

lemma pvFactor_succ_lt {r : ℚ} (hr : 0 ≤ r) (n : Nat) :
    pvFactor r n < pvFactor r (n + 1) := by
  have h1 := one_add_pos hr
  have h2 := pvFactor_mul_rate_lt_one hr n
  simp only [pvFactor]
  rw [lt_div_iff h1]
  nlinarith

lemma pvFactor_succ_mul {r : ℚ} (hr : 0 ≤ r) (n : Nat) :
    (1 + r) * pvFactor r (n + 1) = pvFactor r n + 1 := by
  have h1 := (one_add_pos hr).ne'
  simp only [pvFactor]
  field_simp

lemma pvFactor_zero_rate : ∀ n, pvFactor 0 n = n
  | 0 => by simp [pvFactor]
  | n + 1 => by
    rw [pvFactor, pvFactor_zero_rate n]
    push_cast
    ring

lemma pvFactor_closed {r : ℚ} (hr : 0 < r) :
    ∀ n, pvFactor r n = ((1 + r) ^ n - 1) / (r * (1 + r) ^ n)
  | 0 => by simp [pvFactor]
  | n + 1 => by
    have h1 : (0 : ℚ) < 1 + r := by linarith
    have hf : (0 : ℚ) < (1 + r) ^ n := pow_pos h1 n
    rw [pvFactor, pvFactor_closed hr n]
    rw [pow_succ]
    field_simp
    ring

lemma annuity_payment_mul_pv {P r : ℚ} {months : Int} (hr : 0 ≤ r)
    (hm : 0 < months) : annuity_payment P r months * pvFactor r months.toNat = P := by
  have hn0 : months.toNat ≠ 0 := by omega
  have hnq : ((months.toNat : ℚ)) = ((months : ℤ) : ℚ) := by
    exact_mod_cast congrArg (Int.cast : ℤ → ℚ) (Int.toNat_of_nonneg hm.le)
  have hmq : ((months : ℤ) : ℚ) ≠ 0 := by
    exact_mod_cast hm.ne'
  rcases eq_or_lt_of_le hr with h0 | hpos
  · rw [annuity_payment, if_neg (not_le.mpr hm), if_pos h0.symm, ← h0,
      pvFactor_zero_rate, hnq]
    field_simp
  · have h1 : (0 : ℚ) < 1 + r := by linarith
    have hf : (0 : ℚ) < (1 + r) ^ months.toNat := pow_pos h1 _
    have hf1 : (1 : ℚ) < (1 + r) ^ months.toNat :=
      one_lt_pow (by linarith) hn0
    have hd : ((1 + r) ^ months.toNat - 1) * (r * (1 + r) ^ months.toNat) ≠ 0 :=
      (mul_pos (by linarith) (mul_pos hpos hf)).ne'
    rw [annuity_payment, if_neg (not_le.mpr hm), if_neg hpos.ne',
      pvFactor_closed hpos]
    show P * r * (1 + r) ^ months.toNat / ((1 + r) ^ months.toNat - 1) *
      (((1 + r) ^ months.toNat - 1) / (r * (1 + r) ^ months.toNat)) = P
    rw [div_mul_div_comm, div_eq_iff hd]
    ring

lemma annuity_payment_pos {P r : ℚ} {months : Int} (hP : 0 < P) (hr : 0 ≤ r)
    (hm : 0 < months) : 0 < annuity_payment P r months := by
  have hpv : 0 < pvFactor r months.toNat := by
    have h : months.toNat = (months.toNat - 1) + 1 := by omega
    rw [h]
    exact pvFactor_pos hr _
  by_contra h
  push_neg at h
  have := mul_nonpos_of_nonpos_of_nonneg h hpv.le
  rw [annuity_payment_mul_pv hr hm] at this
  linarith

/-! ### Closed forms of the schedule-building loops -/

/-- Model row `k` (0-based) of an annuity schedule of `n` rows with payment
`A`, rate `r`, first month index `i`. -/
def annuityModelRow (A r : ℚ) (n i k : Nat) : ScheduleRow :=
  ⟨i + k,
    (A * pvFactor r (n - k) - A * pvFactor r (n - (k + 1))) +
      A * pvFactor r (n - k) * r,
    A * pvFactor r (n - k) - A * pvFactor r (n - (k + 1)),
    A * pvFactor r (n - k) * r,
    A * pvFactor r (n - (k + 1))⟩

lemma annuityRows_closed {A r : ℚ} (hA : 0 ≤ A) (hr : 0 ≤ r) :
    ∀ n i, annuityRows A r n (A * pvFactor r n) i =
      (List.range n).map (annuityModelRow A r n i)
  | 0, i => by simp [annuityRows]
  | n + 1, i => by
    have hrec := pvFactor_succ_mul hr n
    have hpv0 := pvFactor_nonneg hr n
    have hpp : A - A * pvFactor r (n + 1) * r =
        A * pvFactor r (n + 1) - A * pvFactor r n := by
      linear_combination (-A) * hrec
    have hmin : min (A - A * pvFactor r (n + 1) * r) (A * pvFactor r (n + 1)) =
        A - A * pvFactor r (n + 1) * r := by
      apply min_eq_left
      rw [hpp]
      nlinarith [mul_nonneg hA hpv0]
    simp only [annuityRows]
    rw [List.range_succ_eq_map, List.map_cons, List.map_map, hmin]
    congr 1
    · simp only [annuityModelRow, Nat.add_sub_cancel, Nat.sub_zero, Nat.add_zero,
        ScheduleRow.mk.injEq, true_and, and_true]
      refine ⟨by linear_combination hpp, by linear_combination hpp,
        by linear_combination -hpp⟩
    · have harg : A * pvFactor r (n + 1) - (A - A * pvFactor r (n + 1) * r) =
          A * pvFactor r n := by linarith
      rw [harg, annuityRows_closed hA hr n (i + 1)]
      refine List.map_congr_left fun k _ => ?_
      simp only [annuityModelRow, Function.comp_apply, Nat.succ_sub_succ]
      congr 1
      omega

/-- Model row `k` (0-based) of an equal-principal schedule of `n` rows. -/
def epModelRow (part r : ℚ) (n i k : Nat) : ScheduleRow :=
  ⟨i + k, part + ((n - k : ℕ) : ℚ) * part * r, part,
    ((n - k : ℕ) : ℚ) * part * r, ((n - (k + 1) : ℕ) : ℚ) * part⟩

lemma epRows_closed {part r : ℚ} (hp : 0 ≤ part) :
    ∀ n i, epRows part r n ((n : ℚ) * part) i =
      (List.range n).map (epModelRow part r n i)
  | 0, i => by simp [epRows]
  | n + 1, i => by
    have hcast : (((n : ℕ) : ℚ)) ≥ 0 := Nat.cast_nonneg n
    have hmin : min part (((n + 1 : ℕ) : ℚ) * part) = part := by
      apply min_eq_left
      push_cast
      nlinarith [mul_nonneg hcast hp]
    simp only [epRows]
    rw [List.range_succ_eq_map, List.map_cons, List.map_map, hmin]
    congr 1
    · simp only [epModelRow, Nat.add_sub_cancel, Nat.sub_zero, Nat.add_zero,
        ScheduleRow.mk.injEq, true_and, and_true]
      push_cast
      ring
    · have harg : ((n + 1 : ℕ) : ℚ) * part - part = ((n : ℕ) : ℚ) * part := by
        push_cast; ring
      rw [harg, epRows_closed hp n (i + 1)]
      refine List.map_congr_left fun k _ => ?_
      simp only [epModelRow, Function.comp_apply, Nat.succ_sub_succ]
      congr 1
      omega

/-! ### Abstract balance-sequence description of `build_schedule` -/

lemma range_map_telescope (b : Nat → ℚ) :
    ∀ n, (((List.range n).map fun k => b k - b (k + 1)).sum) = b 0 - b n
  | 0 => by simp
  | n + 1 => by
    rw [List.range_succ, List.map_append, List.sum_append,
      range_map_telescope b n]
    simp

lemma chain_le {b : Nat → ℚ} {n : Nat}
    (hdec : ∀ k, k < n → b (k + 1) < b k) :
    ∀ j m, j + m ≤ n → b (j + m) ≤ b j := by
  intro j m
  induction m with
  | zero => intro _; exact le_refl _
  | succ m ih =>
    intro h
    have h1 : j + m < n := by omega
    have h2 := hdec (j + m) h1
    have h3 := ih (by omega)
    calc b (j + (m + 1)) = b ((j + m) + 1) := by rw [Nat.add_succ]
    _ ≤ b j := by linarith

lemma chain_pos {b : Nat → ℚ} {n : Nat}
    (hdec : ∀ k, k < n → b (k + 1) < b k) (hn : b n = 0) :
    ∀ j, j < n → 0 < b j := by
  intro j hj
  obtain ⟨m, hm⟩ : ∃ m, (j + 1) + m = n := ⟨n - (j + 1), by omega⟩
  have h1 := chain_le hdec (j + 1) m (by omega)
  rw [hm, hn] at h1
  have h2 := hdec j hj
  linarith

/-- A schedule built by `build_schedule` from a positive principal, a
non-negative rate and a positive number of months is described exactly by a
strictly decreasing balance sequence `b` running from the principal to `0`:
row `k` pays off `b k - b (k+1)` of principal plus interest `b k * r`. -/
lemma build_schedule_spec {P r : ℚ} {months : Int} (method : String)
    (hP : 0 < P) (hr : 0 ≤ r) (hm : 0 < months) :
    ∃ b : Nat → ℚ,
      b 0 = P ∧ b months.toNat = 0 ∧
      (∀ k, k < months.toNat → b (k + 1) < b k) ∧
      build_schedule P r months method =
        (List.range months.toNat).map fun k =>
          ⟨1 + k, (b k - b (k + 1)) + b k * r, b k - b (k + 1), b k * r,
            b (k + 1)⟩ := by
  have hguard : ¬ (months ≤ 0 ∨ P ≤ 0) := by push_neg; exact ⟨hm, hP⟩
  have hnq : ((months.toNat : ℚ)) = ((months : ℤ) : ℚ) := by
    exact_mod_cast congrArg (Int.cast : ℤ → ℚ) (Int.toNat_of_nonneg hm.le)
  have hmq : (0 : ℚ) < ((months : ℤ) : ℚ) := by exact_mod_cast hm
  by_cases hmeth : method = METHOD_EQUAL_PRINCIPAL
  · have hpart : 0 < P / ((months : ℤ) : ℚ) := div_pos hP hmq
    refine ⟨fun k => ((months.toNat - k : ℕ) : ℚ) * (P / ((months : ℤ) : ℚ)),
      ?_, ?_, ?_, ?_⟩
    · show ((months.toNat - 0 : ℕ) : ℚ) * (P / ((months : ℤ) : ℚ)) = P
      rw [Nat.sub_zero, hnq]
      field_simp
    · simp
    · intro k hk
      show ((months.toNat - (k + 1) : ℕ) : ℚ) * (P / ((months : ℤ) : ℚ)) <
        ((months.toNat - k : ℕ) : ℚ) * (P / ((months : ℤ) : ℚ))
      have hlt : ((months.toNat - (k + 1) : ℕ) : ℚ) <
          ((months.toNat - k : ℕ) : ℚ) := by
        exact_mod_cast (show months.toNat - (k + 1) < months.toNat - k by omega)
      exact mul_lt_mul_of_pos_right hlt hpart
    · rw [build_schedule, if_neg hguard, if_pos hmeth]
      have hstart : epRows (P / ((months : ℤ) : ℚ)) r months.toNat P 1 =
          epRows (P / ((months : ℤ) : ℚ)) r months.toNat
            (((months.toNat : ℕ) : ℚ) * (P / ((months : ℤ) : ℚ))) 1 := by
        rw [hnq]
        field_simp
      rw [hstart, epRows_closed hpart.le months.toNat 1]
      refine List.map_congr_left fun k hk => ?_
      have hk' : k < months.toNat := List.mem_range.mp hk
      have hone : ((months.toNat - k : ℕ) : ℚ) -
          ((months.toNat - (k + 1) : ℕ) : ℚ) = 1 := by
        have : months.toNat - k = (months.toNat - (k + 1)) + 1 := by omega
        rw [this]
        push_cast
        ring
      simp only [epModelRow, ScheduleRow.mk.injEq, true_and, and_true]
      refine ⟨by linear_combination ((P / ((months : ℤ) : ℚ))) * hone.symm,
        by linear_combination ((P / ((months : ℤ) : ℚ))) * hone.symm⟩
  · have hA : 0 < annuity_payment P r months := annuity_payment_pos hP hr hm
    have hApv : annuity_payment P r months * pvFactor r months.toNat = P :=
      annuity_payment_mul_pv hr hm
    refine ⟨fun k => annuity_payment P r months * pvFactor r (months.toNat - k),
      ?_, ?_, ?_, ?_⟩
    · show annuity_payment P r months * pvFactor r (months.toNat - 0) = P
      rw [Nat.sub_zero]; exact hApv
    · simp [pvFactor]
    · intro k hk
      show annuity_payment P r months * pvFactor r (months.toNat - (k + 1)) <
        annuity_payment P r months * pvFactor r (months.toNat - k)
      have hstep : months.toNat - k = (months.toNat - (k + 1)) + 1 := by omega
      rw [hstep]
      exact mul_lt_mul_of_pos_left (pvFactor_succ_lt hr _) hA
    · rw [build_schedule, if_neg hguard, if_neg hmeth]
      have hstart : annuityRows (annuity_payment P r months) r months.toNat P 1 =
          annuityRows (annuity_payment P r months) r months.toNat
            (annuity_payment P r months * pvFactor r months.toNat) 1 := by
        rw [hApv]
      rw [hstart, annuityRows_closed hA.le hr months.toNat 1]
      refine List.map_congr_left fun k _ => ?_
      simp [annuityModelRow]

/-! ### Row invariants -/

/-- Row/ordering invariant of a schedule: every row's payment splits into
principal plus interest, the balance column never increases, and the balance
is strictly positive before the final row. -/
def schedule_invariant (rows : List ScheduleRow) : Prop :=
  (∀ row ∈ rows, row.payment = row.principal + row.interest) ∧
  (∀ k row row2, rows.get? k = some row → rows.get? (k + 1) = some row2 →
    row2.balance ≤ row.balance) ∧
  (∀ k row, rows.get? k = some row → k + 1 < rows.length → 0 < row.balance)

lemma get?_range_map {α : Type} (f : Nat → α) (n k : Nat) :
    ((List.range n).map f).get? k = if k < n then some (f k) else none := by
  rw [List.get?_map]
  by_cases h : k < n
  · rw [List.get?_range h, if_pos h]
    rfl
  · rw [if_neg h, List.get?_eq_none.mpr (by simpa using not_lt.mp h)]
    rfl

lemma schedule_invariant_nil : schedule_invariant [] := by
  refine ⟨by simp, ?_, ?_⟩ <;> intro k row <;> simp

lemma build_schedule_invariant_core {P r : ℚ} {months : Int} (method : String)
    (hP : 0 < P) (hr : 0 ≤ r) (hm : 0 < months) :
    schedule_invariant (build_schedule P r months method) := by
  obtain ⟨b, hb0, hbn, hdec, hshape⟩ := build_schedule_spec method hP hr hm
  rw [hshape]
  refine ⟨?_, ?_, ?_⟩
  · intro row hrow
    obtain ⟨k, _, rfl⟩ := List.mem_map.mp hrow
    rfl
  · intro k row row2 hk hk2
    rw [get?_range_map] at hk hk2
    by_cases h1 : k < months.toNat
    · by_cases h2 : k + 1 < months.toNat
      · rw [if_pos h1] at hk
        rw [if_pos h2] at hk2
        obtain rfl := Option.some.inj hk
        obtain rfl := Option.some.inj hk2
        exact (hdec (k + 1) h2).le
      · rw [if_neg h2] at hk2
        exact absurd hk2 (by simp)
    · rw [if_neg h1] at hk
      exact absurd hk (by simp)
  · intro k row hk hlen
    rw [List.length_map, List.length_range] at hlen
    rw [get?_range_map, if_pos (by omega : k < months.toNat)] at hk
    obtain rfl := Option.some.inj hk
    exact chain_pos hdec hbn (k + 1) (by omega)

lemma build_schedule_invariant {P r : ℚ} {months : Int} (method : String)
    (hr : 0 ≤ r) : schedule_invariant (build_schedule P r months method) := by
  by_cases h : months ≤ 0 ∨ P ≤ 0
  · rw [build_schedule, if_pos h]
    exact schedule_invariant_nil
  · push_neg at h
    exact build_schedule_invariant_core method h.2 hr h.1

lemma fpRows_payment_split {pay r : ℚ} :
    ∀ n bal i row, row ∈ fpRows pay r n bal i →
      row.payment = row.principal + row.interest := by
  intro n
  induction n with
  | zero => intro bal i row h; simp [fpRows] at h
  | succ n ih =>
    intro bal i row h
    simp only [fpRows] at h
    split_ifs at h with h1 h2
    · simp at h
    · rw [List.mem_singleton] at h
      subst h
      rfl
    · rw [List.mem_cons] at h
      rcases h with rfl | h
      · rfl
      · exact ih _ _ _ h

lemma fpRows_head_lt {pay r : ℚ} :
    ∀ n bal i row rest, 0 < bal → fpRows pay r n bal i = row :: rest →
      row.balance < bal := by
  intro n
  cases n with
  | zero => intro bal i row rest _ h; simp [fpRows] at h
  | succ n =>
    intro bal i row rest hb h
    simp only [fpRows] at h
    by_cases h1 : pay - bal * r ≤ 0
    · rw [if_pos h1] at h
      simp at h
    · rw [if_neg h1] at h
      have hmin : 0 < min (pay - bal * r) bal :=
        lt_min (by linarith [not_le.mp h1]) hb
      by_cases h2 : bal - min (pay - bal * r) bal ≤ 0
      · rw [if_pos h2] at h
        obtain ⟨heq, -⟩ := List.cons.inj h
        rw [← heq]
        show bal - min (pay - bal * r) bal < bal
        linarith
      · rw [if_neg h2] at h
        obtain ⟨heq, -⟩ := List.cons.inj h
        rw [← heq]
        show bal - min (pay - bal * r) bal < bal
        linarith

lemma fpRows_mono_pos {pay r : ℚ} :
    ∀ n bal i, 0 < bal →
      (∀ k row row2, (fpRows pay r n bal i).get? k = some row →
        (fpRows pay r n bal i).get? (k + 1) = some row2 →
        row2.balance ≤ row.balance) ∧
      (∀ k row, (fpRows pay r n bal i).get? k = some row →
        k + 1 < (fpRows pay r n bal i).length → 0 < row.balance) := by
  intro n
  induction n with
  | zero =>
    intro bal i hb
    constructor <;> intro k row <;> simp [fpRows]
  | succ n ih =>
    intro bal i hb
    simp only [fpRows]
    split_ifs with h1 h2
    · constructor <;> intro k row <;> simp
    · constructor
      · intro k row row2 hk hk2
        rcases k with _ | k <;> simp at hk2
      · intro k row hk hlen
        simp at hlen
    · have hb2 : 0 < bal - min (pay - bal * r) bal := by
        exact lt_of_not_ge fun hcon => h2 (by linarith)
      obtain ⟨ihmono, ihpos⟩ := ih (bal - min (pay - bal * r) bal) (i + 1) hb2
      constructor
      · intro k row row2 hk hk2
        rcases k with _ | k
        · rw [List.get?_cons_zero] at hk
          obtain rfl := Option.some.inj hk
          rw [List.get?_cons_succ] at hk2
          rcases hrest : fpRows pay r n (bal - min (pay - bal * r) bal) (i + 1)
            with _ | ⟨row2h, t⟩
          · rw [hrest] at hk2; simp at hk2
          · rw [hrest, List.get?_cons_zero] at hk2
            obtain rfl := Option.some.inj hk2
            have := fpRows_head_lt n (bal - min (pay - bal * r) bal) (i + 1)
              row2h t hb2 hrest
            exact this.le
        · rw [List.get?_cons_succ] at hk hk2
          exact ihmono k row row2 hk hk2
      · intro k row hk hlen
        rcases k with _ | k
        · rw [List.get?_cons_zero] at hk
          obtain rfl := Option.some.inj hk
          exact hb2
        · rw [List.get?_cons_succ] at hk
          rw [List.length_cons] at hlen
          exact ihpos k row hk (by omega)

lemma build_fixed_invariant (P r pay : ℚ) (mm : Int) :
    schedule_invariant (build_fixed_payment_schedule P r pay mm) := by
  rw [build_fixed_payment_schedule]
  split_ifs with h
  · exact schedule_invariant_nil
  · push_neg at h
    obtain ⟨hmono, hpos⟩ := fpRows_mono_pos mm.toNat P 1 h.1
    exact ⟨fun row hrow => fpRows_payment_split mm.toNat P 1 row hrow,
      hmono, hpos⟩

/-! ### Further schedule-level helpers -/

lemma epRows_length (part rate : ℚ) :
    ∀ n bal i, (epRows part rate n bal i).length = n
  | 0, _, _ => rfl
  | n + 1, bal, i => by
    simp only [epRows, List.length_cons]
    rw [epRows_length part rate n]

lemma annuityRows_length (payment rate : ℚ) :
    ∀ n bal i, (annuityRows payment rate n bal i).length = n
  | 0, _, _ => rfl
  | n + 1, bal, i => by
    simp only [annuityRows, List.length_cons]
    rw [annuityRows_length payment rate n]

lemma build_schedule_length {P r : ℚ} {months : Int} (method : String)
    (hP : 0 < P) (hm : 0 < months) :
    (build_schedule P r months method).length = months.toNat := by
  rw [build_schedule, if_neg (by push_neg; exact ⟨hm, hP⟩)]
  split_ifs with h
  · exact epRows_length _ _ _ _ _
  · exact annuityRows_length _ _ _ _ _

lemma build_schedule_month_index {P r : ℚ} {months : Int} (method : String)
    (hP : 0 < P) (hr : 0 ≤ r) (hm : 0 < months) {k : Nat} {row : ScheduleRow}
    (h : (build_schedule P r months method).get? k = some row) :
    row.month_index = k + 1 := by
  obtain ⟨b, -, -, -, hshape⟩ := build_schedule_spec method hP hr hm
  rw [hshape, get?_range_map] at h
  by_cases hk : k < months.toNat
  · rw [if_pos hk] at h
    obtain rfl := Option.some.inj h
    exact Nat.add_comm 1 k
  · rw [if_neg hk] at h
    exact absurd h (by simp)

lemma build_schedule_last_balance {P r : ℚ} {months : Int} (method : String)
    (hP : 0 < P) (hr : 0 ≤ r) (hm : 0 < months) :
    ∃ last, (build_schedule P r months method).getLast? = some last ∧
      last.balance = 0 := by
  obtain ⟨b, hb0, hbn, hdec, hshape⟩ := build_schedule_spec method hP hr hm
  obtain ⟨m, hmn⟩ : ∃ m, months.toNat = m + 1 := ⟨months.toNat - 1, by omega⟩
  rw [hshape, hmn, List.range_succ, List.map_append]
  refine ⟨_, List.getLast?_concat _, ?_⟩
  show b (m + 1) = 0
  rw [← hmn, hbn]

lemma build_schedule_sum_principal {P r : ℚ} {months : Int} (method : String)
    (hP : 0 < P) (hr : 0 ≤ r) (hm : 0 < months) :
    ((build_schedule P r months method).map (·.principal)).sum = P := by
  obtain ⟨b, hb0, hbn, hdec, hshape⟩ := build_schedule_spec method hP hr hm
  rw [hshape, List.map_map]
  have hfun : ((fun row : ScheduleRow => row.principal) ∘ fun k =>
      (⟨1 + k, (b k - b (k + 1)) + b k * r, b k - b (k + 1), b k * r,
        b (k + 1)⟩ : ScheduleRow)) = fun k => b k - b (k + 1) := by
    funext k
    rfl
  rw [hfun, range_map_telescope b months.toNat, hb0, hbn, sub_zero]

lemma build_schedule_balance_pos {P r : ℚ} {months : Int} (method : String)
    (hP : 0 < P) (hr : 0 ≤ r) (hm : 0 < months) {k : Nat} {row : ScheduleRow}
    (h : (build_schedule P r months method).get? k = some row)
    (hk : k + 1 < months.toNat) : 0 < row.balance := by
  obtain ⟨b, hb0, hbn, hdec, hshape⟩ := build_schedule_spec method hP hr hm
  rw [hshape, get?_range_map, if_pos (by omega : k < months.toNat)] at h
  obtain rfl := Option.some.inj h
  exact chain_pos hdec hbn (k + 1) hk

lemma compute_paid_periods_range (params : LoanParams) (today : Date)
    (hT : 0 ≤ params.term_months) :
    0 ≤ compute_paid_periods params today ∧
      compute_paid_periods params today ≤ params.term_months := by
  rw [compute_paid_periods]
  rcases params.paid_periods with _ | p
  · rcases params.first_payment_date with _ | fp
    · exact ⟨le_refl 0, hT⟩
    · constructor
      · exact le_min (le_max_right _ _) hT
      · exact min_le_right _ _
  · constructor
    · exact le_min (le_max_right _ _) hT
    · exact min_le_right _ _

/-! ### Shared concrete evaluations -/

lemma norm_annuity : normalize_method "annuity" = Except.ok METHOD_ANNUITY := by
  rw [normalize_method, if_neg (by decide)]
  show (if _ ∨ _ ∨ _ then _ else _) = _
  rw [if_pos (by decide)]

/-- Fully evaluated run of `simulate` on a small zero-rate annuity loan. -/
lemma simulate_demo_eval :
    simulate ⟨1000, 0, 2, "annuity", some 0, none⟩ ⟨0, none⟩ ⟨2026, 1, 1⟩ =
    Except.ok ⟨0, 2, 1000, 500, 500, 2, 0, 0, 0, 0, 0,
      [⟨1, 500, 500, 0, 500⟩, ⟨2, 500, 500, 0, 0⟩],
      [⟨1, 500, 500, 0, 500⟩, ⟨2, 500, 500, 0, 0⟩],
      [⟨1, 500, 500, 0, 500⟩, ⟨2, 500, 500, 0, 0⟩],
      [(1, 0)], some 1, some "monthly_interest_below_principal"⟩ := by
  rw [simulate, if_neg (by norm_num), norm_annuity]
  norm_num [simulate_after, sim_paid, sim_full, sim_base_remaining,
    sim_remaining_principal, compute_paid_periods, build_schedule, annuityRows,
    annuity_payment, monthly_rate, build_fixed_payment_schedule, fpRows,
    aggregate_interest_by_year, addToYear, find_critical_point, suffix_frac,
    METHOD_EQUAL_PRINCIPAL, METHOD_ANNUITY, paidOffResult,
    show ("equal_payment" : String) ≠ "equal_principal" from by decide]

/-- Fully evaluated run of `simulate` on a one-month loan with a negative
annual rate, showing the engine does not zero out negative rates. -/
lemma simulate_negative_rate_eval :
    simulate ⟨1200, -12, 1, "annuity", some 0, none⟩ ⟨0, none⟩ ⟨2026, 1, 1⟩ =
    Except.ok ⟨0, 1, 1200, 1188, 1188, 1, -12, -12, -12, 0, 0,
      [⟨1, 1188, 1200, -12, 0⟩], [⟨1, 1188, 1200, -12, 0⟩],
      [⟨1, 1188, 1200, -12, 0⟩],
      [(1, -12)], some 1, some "monthly_interest_below_principal"⟩ := by
  rw [simulate, if_neg (by norm_num), norm_annuity]
  norm_num [simulate_after, sim_paid, sim_full, sim_base_remaining,
    sim_remaining_principal, compute_paid_periods, build_schedule, annuityRows,
    annuity_payment, monthly_rate, build_fixed_payment_schedule, fpRows,
    aggregate_interest_by_year, addToYear, find_critical_point, suffix_frac,
    METHOD_EQUAL_PRINCIPAL, METHOD_ANNUITY, paidOffResult,
    show ("equal_payment" : String) ≠ "equal_principal" from by decide]

/-! ### Claim theorems -/

/-- C1: the `prepayment:export-zip` handler cannot hand the PDF generator's
result to the archive as claimed.  `api.export_zip` calls
`report.generate_pdf` without the required `output_dir` keyword parameter,
so the call itself fails to bind (and `generate_pdf` returns a file path,
not the document's bytes). -/
theorem export_zip_pdf_call_missing_output_dir :
    python_kwargs_call_ok generate_pdf_required_kwargs
      export_zip_generate_pdf_call_kwargs = false ∧
    "output_dir" ∈ generate_pdf_required_kwargs ∧
    "output_dir" ∉ export_zip_generate_pdf_call_kwargs := by
  decide

/-- C2: for a schedule built by `build_schedule` from `principal > 0`,
`rate ≥ 0`, `months > 0` under any method string, the final row's balance is
exactly `0` and the per-row principal portions sum exactly to the starting
principal (the claim's floating-point tolerance is modelled as exact
rational arithmetic). -/
theorem build_schedule_payoff_exact (P r : ℚ) (months : Int) (method : String)
    (hP : 0 < P) (hr : 0 ≤ r) (hm : 0 < months) :
    (∃ last, (build_schedule P r months method).getLast? = some last ∧
      last.balance = 0) ∧
    ((build_schedule P r months method).map (·.principal)).sum = P :=
  ⟨build_schedule_last_balance method hP hr hm,
    build_schedule_sum_principal method hP hr hm⟩

/-- Witness for C2 at a concrete annuity loan. -/
theorem build_schedule_payoff_exact_witness :
    (0 : ℚ) < 1000 ∧ (0 : ℚ) ≤ 1 / 100 ∧ (0 : Int) < 2 ∧
    ((∃ last, (build_schedule 1000 (1 / 100) 2 "equal_payment").getLast? =
        some last ∧ last.balance = 0) ∧
    ((build_schedule 1000 (1 / 100) 2 "equal_payment").map
      (·.principal)).sum = 1000) :=
  ⟨by norm_num, by norm_num, by norm_num,
    build_schedule_payoff_exact 1000 (1 / 100) 2 "equal_payment"
      (by norm_num) (by norm_num) (by norm_num)⟩

/-- C3 counterexample: a loan with `annual_rate < 0` but positive principal
and term is not mapped to the all-zero result; `simulate` simply runs with
the negative rate. -/
theorem simulate_negative_rate_not_all_zero :
    (LoanParams.mk 1200 (-12) 1 "annuity" (some 0) none).annual_rate < 0 ∧
    0 < (LoanParams.mk 1200 (-12) 1 "annuity" (some 0) none).principal ∧
    0 < (LoanParams.mk 1200 (-12) 1 "annuity" (some 0) none).term_months ∧
    simulate (LoanParams.mk 1200 (-12) 1 "annuity" (some 0) none) ⟨0, none⟩
      ⟨2026, 1, 1⟩ ≠ Except.ok zeroResult := by
  refine ⟨by norm_num, by norm_num, by norm_num, ?_⟩
  rw [simulate_negative_rate_eval]
  intro hcon
  have h1 := congrArg SimulationResult.remaining_principal (Except.ok.inj hcon)
  rw [zeroResult] at h1
  norm_num at h1

/-- C3 (amended): `simulate` raises no error and returns the well-formed
all-zero result exactly when `principal ≤ 0` or `term_months ≤ 0`; a
negative `annual_rate` is not checked and the simulation proceeds with it. -/
theorem simulate_invalid_input_all_zero (params : LoanParams)
    (prepay : Prepayment) (today : Date)
    (h : params.principal ≤ 0 ∨ params.term_months ≤ 0) :
    simulate params prepay today = Except.ok zeroResult := by
  rw [simulate, if_pos h]

/-- Witness for the amended C3 at a negative-principal loan. -/
theorem simulate_invalid_input_all_zero_witness :
    ((-5 : ℚ) ≤ 0 ∨ (360 : Int) ≤ 0) ∧
    simulate ⟨-5, 3.5, 360, "annuity", some 0, none⟩ ⟨100, none⟩
      ⟨2026, 1, 1⟩ = Except.ok zeroResult :=
  ⟨Or.inl (by norm_num),
    simulate_invalid_input_all_zero ⟨-5, 3.5, 360, "annuity", some 0, none⟩
      ⟨100, none⟩ ⟨2026, 1, 1⟩ (Or.inl (by norm_num))⟩

/-- C4: every row of a schedule produced by `build_schedule` (at any
non-negative rate) or by `build_fixed_payment_schedule` (at any arguments)
satisfies `payment = principal + interest` exactly, the balance column is
monotonically non-increasing, and the balance is strictly positive before
the final row (so it reaches `≤ 0` only at or after the final row). -/
theorem schedule_row_invariants (P r P2 r2 pay : ℚ) (months mm : Int)
    (method : String) (hr : 0 ≤ r) :
    schedule_invariant (build_schedule P r months method) ∧
    schedule_invariant (build_fixed_payment_schedule P2 r2 pay mm) :=
  ⟨build_schedule_invariant method hr, build_fixed_invariant P2 r2 pay mm⟩

/-- Witness for C4 at a concrete loan. -/
theorem schedule_row_invariants_witness :
    (0 : ℚ) ≤ 1 / 100 ∧
    (schedule_invariant (build_schedule 1000 (1 / 100) 12 "equal_principal") ∧
    schedule_invariant (build_fixed_payment_schedule 1000 (1 / 100) 500 24)) :=
  ⟨by norm_num,
    schedule_row_invariants 1000 (1 / 100) 1000 (1 / 100) 500 12 24
      "equal_principal" (by norm_num)⟩

/-! ### Simulate-level helpers for C10 and C6 -/

lemma simulate_remaining_months {params : LoanParams} {prepay : Prepayment}
    {today : Date} {res : SimulationResult}
    (hp : 0 < params.principal) (ht : 0 < params.term_months)
    (hra : 0 ≤ params.annual_rate)
    (hres : simulate params prepay today = Except.ok res) :
    (res.remaining_months : Int) =
      params.term_months - compute_paid_periods params today := by
  have hrm : 0 ≤ monthly_rate params.annual_rate := by
    rw [monthly_rate]
    positivity
  have hsp : sim_paid params today = compute_paid_periods params today := rfl
  rw [simulate, if_neg (by push_neg; exact ⟨hp, ht⟩)] at hres
  rcases hmeth : normalize_method params.method with e | m
  · rw [hmeth] at hres
    exact absurd hres (by simp)
  · rw [hmeth] at hres
    have hres2 : simulate_after params m prepay.amount today = res :=
      Except.ok.inj hres
    obtain ⟨hp0, hple⟩ := compute_paid_periods_range params today ht.le
    rw [← hsp] at hp0 hple
    have hlen : (sim_full params m).length = params.term_months.toNat :=
      build_schedule_length m hp ht
    have hbrlen : (sim_base_remaining params m today).length =
        params.term_months.toNat - (sim_paid params today).toNat := by
      rw [sim_base_remaining, List.length_drop, hlen]
    have key : (sim_base_remaining params m today).length = 0 ∨
        ((sim_base_remaining params m today).length ≠ 0 ∧
          0 < sim_remaining_principal params m today) := by
      by_cases hz : (sim_base_remaining params m today).length = 0
      · exact Or.inl hz
      · refine Or.inr ⟨hz, ?_⟩
        rw [sim_remaining_principal]
        split_ifs with hpd
        · exact hp
        · push_neg at hpd
          have hidx : ((sim_paid params today - 1).toNat) <
              (sim_full params m).length := by
            rw [hlen]; omega
          rw [List.get?_eq_get hidx]
          show 0 < ((sim_full params m).get ⟨_, hidx⟩).balance
          refine build_schedule_balance_pos m hp hrm ht
            (List.get?_eq_get hidx) ?_
          omega
    simp only [simulate_after] at hres2
    rcases key with hz | ⟨hz, hrp⟩
    · rw [if_pos (Or.inl hz)] at hres2
      obtain rfl := hres2
      show ((0 : ℕ) : Int) = params.term_months - compute_paid_periods params today
      rw [← hsp]
      omega
    · rw [if_neg (not_or.mpr ⟨hz, not_le.mpr hrp⟩)] at hres2
      obtain rfl := hres2
      show (((sim_base_remaining params m today).length : ℕ) : Int) =
        params.term_months - compute_paid_periods params today
      rw [hbrlen, ← hsp]
      omega

/-- C10: `build_schedule` on a positive principal, non-negative rate and
positive month count returns exactly `months` rows whose `month_index` at
position `k` is `k + 1`; consequently `simulate`'s `remaining_months` equals
`term_months` minus the resolved paid periods. -/
theorem build_schedule_shape_and_remaining_months (P r : ℚ) (months : Int)
    (method : String) (params : LoanParams) (prepay : Prepayment)
    (today : Date) (res : SimulationResult)
    (hP : 0 < P) (hr : 0 ≤ r) (hm : 0 < months)
    (hp : 0 < params.principal) (ht : 0 < params.term_months)
    (hra : 0 ≤ params.annual_rate)
    (hres : simulate params prepay today = Except.ok res) :
    (build_schedule P r months method).length = months.toNat ∧
    (∀ k row, (build_schedule P r months method).get? k = some row →
      row.month_index = k + 1) ∧
    (res.remaining_months : Int) =
      params.term_months - compute_paid_periods params today :=
  ⟨build_schedule_length method hP hm,
    fun _ _ h => build_schedule_month_index method hP hr hm h,
    simulate_remaining_months hp ht hra hres⟩

/-- Witness for C10 at a concrete loan and a fully evaluated simulation. -/
theorem build_schedule_shape_and_remaining_months_witness :
    (0 : ℚ) < 1000 ∧ (0 : ℚ) ≤ 1 / 100 ∧ (0 : Int) < 2 ∧
    (0 : ℚ) < (1000 : ℚ) ∧ (0 : Int) < 2 ∧ (0 : ℚ) ≤ 0 ∧
    ((build_schedule 1000 (1 / 100) 2 "equal_payment").length =
      (2 : Int).toNat ∧
    (∀ k row, (build_schedule 1000 (1 / 100) 2 "equal_payment").get? k =
      some row → row.month_index = k + 1) ∧
    (((⟨0, 2, 1000, 500, 500, 2, 0, 0, 0, 0, 0,
      [⟨1, 500, 500, 0, 500⟩, ⟨2, 500, 500, 0, 0⟩],
      [⟨1, 500, 500, 0, 500⟩, ⟨2, 500, 500, 0, 0⟩],
      [⟨1, 500, 500, 0, 500⟩, ⟨2, 500, 500, 0, 0⟩],
      [(1, 0)], some 1, some "monthly_interest_below_principal"⟩ :
        SimulationResult).remaining_months : Int) =
      (⟨1000, 0, 2, "annuity", some 0, none⟩ : LoanParams).term_months -
        compute_paid_periods ⟨1000, 0, 2, "annuity", some 0, none⟩
          ⟨2026, 1, 1⟩)) :=
  ⟨by norm_num, by norm_num, by norm_num, by norm_num, by norm_num,
    le_refl 0,
    build_schedule_shape_and_remaining_months 1000 (1 / 100) 2 "equal_payment"
      ⟨1000, 0, 2, "annuity", some 0, none⟩ ⟨0, none⟩ ⟨2026, 1, 1⟩ _
      (by norm_num) (by norm_num) (by norm_num) (by norm_num) (by norm_num)
      (le_refl 0) simulate_demo_eval⟩

lemma build_schedule_zero_principal (r : ℚ) (months : Int) (method : String) :
    build_schedule 0 r months method = [] := by
  rw [build_schedule, if_pos (Or.inr (le_refl 0))]

lemma build_fixed_zero_principal (r pay : ℚ) (mm : Int) :
    build_fixed_payment_schedule 0 r pay mm = [] := by
  rw [build_fixed_payment_schedule, if_pos (Or.inl (le_refl 0))]

/-- C6: on a loan with positive remaining principal, `simulate` with a
prepayment amount strictly above the remaining principal yields the same
result as `simulate` with exactly the remaining principal; that full-payoff
result has empty reduced and shorten schedules and zero
`reduced_monthly_payment` and `shorten_months`. -/
theorem simulate_overpay_clamps (params : LoanParams) (today : Date)
    (a : ℚ) (ir ir2 : Option ℚ) (m : String)
    (hp : 0 < params.principal) (ht : 0 < params.term_months)
    (hm : normalize_method params.method = Except.ok m)
    (hrp : 0 < sim_remaining_principal params m today)
    (ha : sim_remaining_principal params m today < a) :
    ∃ res, simulate params ⟨a, ir⟩ today = Except.ok res ∧
      simulate params ⟨sim_remaining_principal params m today, ir2⟩ today =
        Except.ok res ∧
      res.reduced_schedule = [] ∧ res.shorten_schedule = [] ∧
      res.reduced_monthly_payment = 0 ∧ res.shorten_months = 0 := by
  have hguard : ¬ (params.principal ≤ 0 ∨ params.term_months ≤ 0) := by
    push_neg
    exact ⟨hp, ht⟩
  have hmin1 : min a (sim_remaining_principal params m today) =
      sim_remaining_principal params m today := min_eq_right ha.le
  refine ⟨simulate_after params m a today, ?_, ?_, ?_, ?_, ?_, ?_⟩
  · rw [simulate, if_neg hguard, hm]
  · rw [simulate, if_neg hguard, hm]
    exact congrArg Except.ok (by simp only [simulate_after, hmin1, min_self])
  all_goals
    simp only [simulate_after, hmin1]
    split_ifs with hz
    · rfl
    · simp [sub_self, max_self, build_schedule_zero_principal,
        build_fixed_zero_principal]

/-- Witness for C6 at a concrete loan with prepayment above the remaining
principal. -/
theorem simulate_overpay_clamps_witness :
    (0 : ℚ) < (1000 : ℚ) ∧ (0 : Int) < 2 ∧
    normalize_method "annuity" = Except.ok "equal_payment" ∧
    0 < sim_remaining_principal ⟨1000, 0, 2, "annuity", some 0, none⟩
      "equal_payment" ⟨2026, 1, 1⟩ ∧
    sim_remaining_principal ⟨1000, 0, 2, "annuity", some 0, none⟩
      "equal_payment" ⟨2026, 1, 1⟩ < 2000 ∧
    (∃ res, simulate ⟨1000, 0, 2, "annuity", some 0, none⟩ ⟨2000, none⟩
        ⟨2026, 1, 1⟩ = Except.ok res ∧
      simulate ⟨1000, 0, 2, "annuity", some 0, none⟩
        ⟨sim_remaining_principal ⟨1000, 0, 2, "annuity", some 0, none⟩
          "equal_payment" ⟨2026, 1, 1⟩, none⟩ ⟨2026, 1, 1⟩ = Except.ok res ∧
      res.reduced_schedule = [] ∧ res.shorten_schedule = [] ∧
      res.reduced_monthly_payment = 0 ∧ res.shorten_months = 0) :=
  ⟨by norm_num, by norm_num, norm_annuity,
    by norm_num [sim_remaining_principal, sim_paid, compute_paid_periods],
    by norm_num [sim_remaining_principal, sim_paid, compute_paid_periods],
    simulate_overpay_clamps ⟨1000, 0, 2, "annuity", some 0, none⟩
      ⟨2026, 1, 1⟩ 2000 none none "equal_payment" (by norm_num) (by norm_num)
      norm_annuity
      (by norm_num [sim_remaining_principal, sim_paid, compute_paid_periods])
      (by norm_num [sim_remaining_principal, sim_paid, compute_paid_periods])⟩

/-- C7: `compute_paid_periods` uses an explicitly supplied count (clamped to
`[0, term_months]`), else the whole-month difference from the first payment
date (minus one when today's day-of-month precedes the start day, clamped),
else `0`; in all cases the result lies in `[0, term_months]`. -/
theorem compute_paid_periods_resolution (params : LoanParams) (today : Date)
    (hT : 0 ≤ params.term_months) :
    (∀ p, params.paid_periods = some p →
      compute_paid_periods params today = min (max p 0) params.term_months) ∧
    (params.paid_periods = none → params.first_payment_date = none →
      compute_paid_periods params today = 0) ∧
    (∀ fp, params.paid_periods = none → params.first_payment_date = some fp →
      compute_paid_periods params today =
        min (max (if today.day < fp.day
          then (today.year - fp.year) * 12 + (today.month - fp.month) - 1
          else (today.year - fp.year) * 12 + (today.month - fp.month)) 0)
          params.term_months) ∧
    (0 ≤ compute_paid_periods params today ∧
      compute_paid_periods params today ≤ params.term_months) := by
  refine ⟨?_, ?_, ?_, compute_paid_periods_range params today hT⟩
  · intro p hp
    rw [compute_paid_periods, hp]
  · intro h1 h2
    rw [compute_paid_periods, h1, h2]
  · intro fp h1 h2
    simp only [compute_paid_periods, h1, h2]

/-- Witness for C7 with a first-payment date whose day-of-month is after
today's. -/
theorem compute_paid_periods_resolution_witness :
    (0 : Int) ≤ 360 ∧
    ((∀ p, (some (5 : Int) : Option Int) = some p →
      compute_paid_periods ⟨1000, 3, 360, "annuity", some 5, none⟩
        ⟨2026, 10, 12⟩ = min (max p 0) 360) ∧
    ((some (5 : Int) : Option Int) = none → (none : Option Date) = none →
      compute_paid_periods ⟨1000, 3, 360, "annuity", some 5, none⟩
        ⟨2026, 10, 12⟩ = 0) ∧
    (∀ fp, (some (5 : Int) : Option Int) = none →
      (none : Option Date) = some fp →
      compute_paid_periods ⟨1000, 3, 360, "annuity", some 5, none⟩
        ⟨2026, 10, 12⟩ =
        min (max (if (12 : Int) < fp.day
          then ((2026 : Int) - fp.year) * 12 + (10 - fp.month) - 1
          else ((2026 : Int) - fp.year) * 12 + (10 - fp.month)) 0) 360) ∧
    (0 ≤ compute_paid_periods ⟨1000, 3, 360, "annuity", some 5, none⟩
        ⟨2026, 10, 12⟩ ∧
      compute_paid_periods ⟨1000, 3, 360, "annuity", some 5, none⟩
        ⟨2026, 10, 12⟩ ≤ 360)) :=
  ⟨by norm_num,
    compute_paid_periods_resolution ⟨1000, 3, 360, "annuity", some 5, none⟩
      ⟨2026, 10, 12⟩ (by norm_num)⟩

/-- C8: `normalize_method` maps the three annuity aliases of the trimmed,
lower-cased input to the canonical `equal_payment`, the two equal-principal
aliases to `equal_principal`, and errors exactly when the trimmed,
lower-cased input is none of the five aliases (the empty and
whitespace-only strings included). -/
theorem normalize_method_aliases (s : String) :
    (normalize_method s = Except.ok METHOD_ANNUITY ↔
      (py_strip_lower s = "annuity" ∨ py_strip_lower s = "equal_payment" ∨
        py_strip_lower s = "equal_installment")) ∧
    (normalize_method s = Except.ok METHOD_EQUAL_PRINCIPAL ↔
      (py_strip_lower s = "equal_principal" ∨
        py_strip_lower s = "principal")) ∧
    ((∃ e, normalize_method s = Except.error e) ↔
      ¬(py_strip_lower s = "annuity" ∨ py_strip_lower s = "equal_payment" ∨
        py_strip_lower s = "equal_installment" ∨
        py_strip_lower s = "equal_principal" ∨
        py_strip_lower s = "principal")) := by
  by_cases hs : s = ""
  · subst hs
    rw [normalize_method, if_pos rfl]
    refine ⟨iff_of_false (by simp) (by decide),
      iff_of_false (by simp) (by decide),
      iff_of_true ⟨_, rfl⟩ (by decide)⟩
  · rw [normalize_method, if_neg hs]
    by_cases h1 : py_strip_lower s = "annuity" ∨
        py_strip_lower s = "equal_payment" ∨
        py_strip_lower s = "equal_installment"
    · rw [if_pos h1]
      refine ⟨iff_of_true rfl h1, ?_, ?_⟩
      · refine iff_of_false (by simp [METHOD_ANNUITY, METHOD_EQUAL_PRINCIPAL]) ?_
        intro h2
        rcases h1 with ha | ha | ha <;> rcases h2 with hb | hb <;>
          rw [ha] at hb <;> exact absurd hb (by decide)
      · refine iff_of_false ?_ (by tauto)
        rintro ⟨e, he⟩
        simp at he
    · rw [if_neg h1]
      by_cases h2 : py_strip_lower s = "equal_principal" ∨
          py_strip_lower s = "principal"
      · rw [if_pos h2]
        refine ⟨iff_of_false
          (by simp [METHOD_ANNUITY, METHOD_EQUAL_PRINCIPAL]) h1,
          iff_of_true rfl h2, ?_⟩
        refine iff_of_false ?_ (by tauto)
        rintro ⟨e, he⟩
        simp at he
      · rw [if_neg h2]
        refine ⟨iff_of_false (by simp) h1, iff_of_false (by simp) h2,
          iff_of_true ⟨_, rfl⟩ (by tauto)⟩

/-- Witness for C8: a mixed-case, whitespace-padded annuity alias maps to
the canonical `equal_payment`. -/
theorem normalize_method_aliases_witness :
    ((normalize_method " AnNuItY " = Except.ok METHOD_ANNUITY ↔
      (py_strip_lower " AnNuItY " = "annuity" ∨
        py_strip_lower " AnNuItY " = "equal_payment" ∨
        py_strip_lower " AnNuItY " = "equal_installment")) ∧
    (normalize_method " AnNuItY " = Except.ok METHOD_EQUAL_PRINCIPAL ↔
      (py_strip_lower " AnNuItY " = "equal_principal" ∨
        py_strip_lower " AnNuItY " = "principal")) ∧
    ((∃ e, normalize_method " AnNuItY " = Except.error e) ↔
      ¬(py_strip_lower " AnNuItY " = "annuity" ∨
        py_strip_lower " AnNuItY " = "equal_payment" ∨
        py_strip_lower " AnNuItY " = "equal_installment" ∨
        py_strip_lower " AnNuItY " = "equal_principal" ∨
        py_strip_lower " AnNuItY " = "principal"))) ∧
    normalize_method " AnNuItY " = Except.ok "equal_payment" :=
  ⟨normalize_method_aliases " AnNuItY ",
    (normalize_method_aliases " AnNuItY ").1.mpr (Or.inl (by decide))⟩

/-- C9: the combined-loan row set has the length of the longer leg, carries
`month_index = idx + 1` and leg-wise field sums (a missing row of a shorter
leg counts as the all-zero placeholder), and beyond a short leg's length the
combined row equals the long leg's row in all four numeric fields. -/
theorem combined_rows_spec (fund commercial : List ScheduleRow) :
    (combined_rows fund commercial).length =
      max fund.length commercial.length ∧
    (∀ idx row, (combined_rows fund commercial).get? idx = some row →
      row.month_index = idx + 1 ∧
      row.payment = ((fund.get? idx).getD (zeroRowAt idx)).payment +
        ((commercial.get? idx).getD (zeroRowAt idx)).payment ∧
      row.principal = ((fund.get? idx).getD (zeroRowAt idx)).principal +
        ((commercial.get? idx).getD (zeroRowAt idx)).principal ∧
      row.interest = ((fund.get? idx).getD (zeroRowAt idx)).interest +
        ((commercial.get? idx).getD (zeroRowAt idx)).interest ∧
      row.balance = ((fund.get? idx).getD (zeroRowAt idx)).balance +
        ((commercial.get? idx).getD (zeroRowAt idx)).balance) ∧
    (∀ idx row rowf, commercial.length ≤ idx →
      (combined_rows fund commercial).get? idx = some row →
      fund.get? idx = some rowf →
      row.payment = rowf.payment ∧ row.principal = rowf.principal ∧
      row.interest = rowf.interest ∧ row.balance = rowf.balance) ∧
    (∀ idx row rowc, fund.length ≤ idx →
      (combined_rows fund commercial).get? idx = some row →
      commercial.get? idx = some rowc →
      row.payment = rowc.payment ∧ row.principal = rowc.principal ∧
      row.interest = rowc.interest ∧ row.balance = rowc.balance) := by
  refine ⟨?_, ?_, ?_, ?_⟩
  · rw [combined_rows, List.length_map, List.length_range]
  · intro idx row hrow
    rw [combined_rows, get?_range_map] at hrow
    by_cases hlt : idx < max fund.length commercial.length
    · rw [if_pos hlt] at hrow
      obtain rfl := Option.some.inj hrow
      exact ⟨rfl, rfl, rfl, rfl, rfl⟩
    · rw [if_neg hlt] at hrow
      exact absurd hrow (by simp)
  · intro idx row rowf hcl hrow hf
    rw [combined_rows, get?_range_map] at hrow
    by_cases hlt : idx < max fund.length commercial.length
    · rw [if_pos hlt] at hrow
      obtain rfl := Option.some.inj hrow
      rw [List.get?_eq_none.mpr hcl, hf]
      refine ⟨?_, ?_, ?_, ?_⟩ <;> simp [zeroRowAt]
    · rw [if_neg hlt] at hrow
      exact absurd hrow (by simp)
  · intro idx row rowc hfl hrow hc
    rw [combined_rows, get?_range_map] at hrow
    by_cases hlt : idx < max fund.length commercial.length
    · rw [if_pos hlt] at hrow
      obtain rfl := Option.some.inj hrow
      rw [List.get?_eq_none.mpr hfl, hc]
      refine ⟨?_, ?_, ?_, ?_⟩ <;> simp [zeroRowAt]
    · rw [if_neg hlt] at hrow
      exact absurd hrow (by simp)

/-- Witness for C9 with a two-row fund leg and an empty commercial leg. -/
theorem combined_rows_spec_witness :
    (combined_rows [⟨1, 5, 3, 2, 7⟩, ⟨2, 5, 4, 1, 3⟩] []).length =
      max ([⟨1, 5, 3, 2, 7⟩, ⟨2, 5, 4, 1, 3⟩] :
        List ScheduleRow).length ([] : List ScheduleRow).length ∧
    (combined_rows [⟨1, 5, 3, 2, 7⟩, ⟨2, 5, 4, 1, 3⟩] []).length = 2 :=
  ⟨(combined_rows_spec [⟨1, 5, 3, 2, 7⟩, ⟨2, 5, 4, 1, 3⟩] []).1,
    by norm_num [combined_rows]⟩

/-- C5: `find_critical_point` returns the month index of the first row (in
scan order) hitting either condition, testing per row first whether the
row's interest is below its principal portion and otherwise whether the
suffix interest share from that row on is below 10%; under the
first reason every earlier row has `interest ≥ principal`, under the second
the suffix share at the hit is below 10% and at least 10% at every earlier
row; with no qualifying row (the empty schedule included) it reports no
critical point. -/
theorem find_critical_point_first_match (s : List ScheduleRow) :
    (s = [] → find_critical_point s = (none, none)) ∧
    (find_critical_point s = (none, none) ↔
      ∀ i row, s.get? i = some row →
        ¬ row.interest < row.principal ∧
        ¬ suffix_frac (s.drop i) < 1 / 10) ∧
    (∀ m, find_critical_point s =
        (some m, some "monthly_interest_below_principal") →
      ∃ i row, s.get? i = some row ∧ row.month_index = m ∧
        row.interest < row.principal ∧
        ∀ j rowj, j < i → s.get? j = some rowj →
          rowj.principal ≤ rowj.interest) ∧
    (∀ m, find_critical_point s =
        (some m, some "remaining_interest_below_10_percent") →
      ∃ i row, s.get? i = some row ∧ row.month_index = m ∧
        suffix_frac (s.drop i) < 1 / 10 ∧
        ∀ j, j < i → ¬ suffix_frac (s.drop j) < 1 / 10) := by
  induction s with
  | nil =>
    refine ⟨fun _ => rfl, iff_of_true rfl fun i row h => absurd h (by simp),
      ?_, ?_⟩ <;>
      · intro m h
        simp [find_critical_point] at h
  | cons row rest ih =>
    obtain ⟨-, ihnone, ih1, ih2⟩ := ih
    by_cases hc1 : row.interest < row.principal
    · have heq : find_critical_point (row :: rest) =
          (some row.month_index, some "monthly_interest_below_principal") := by
        rw [find_critical_point, if_pos hc1]
      refine ⟨fun h => absurd h (by simp), ?_, ?_, ?_⟩
      · rw [heq]
        refine iff_of_false (by simp) ?_
        intro hall
        exact (hall 0 row (by simp)).1 hc1
      · intro m h
        rw [heq] at h
        have hm := Option.some.inj (congrArg Prod.fst h)
        exact ⟨0, row, by simp, hm, hc1, fun j rowj hj _ => absurd hj (by omega)⟩
      · intro m h
        rw [heq] at h
        have hstr := Option.some.inj (congrArg Prod.snd h)
        exact absurd hstr (by decide)
    · by_cases hc2 : suffix_frac (row :: rest) < 1 / 10
      · have heq : find_critical_point (row :: rest) =
            (some row.month_index,
              some "remaining_interest_below_10_percent") := by
          rw [find_critical_point, if_neg hc1, if_pos hc2]
        refine ⟨fun h => absurd h (by simp), ?_, ?_, ?_⟩
        · rw [heq]
          refine iff_of_false (by simp) ?_
          intro hall
          have := (hall 0 row (by simp)).2
          rw [List.drop_zero] at this
          exact this hc2
        · intro m h
          rw [heq] at h
          have hstr := Option.some.inj (congrArg Prod.snd h)
          exact absurd hstr (by decide)
        · intro m h
          rw [heq] at h
          have hm := Option.some.inj (congrArg Prod.fst h)
          refine ⟨0, row, by simp, hm, ?_, fun j hj => absurd hj (by omega)⟩
          rw [List.drop_zero]
          exact hc2
      · have heq : find_critical_point (row :: rest) =
            find_critical_point rest := by
          rw [find_critical_point, if_neg hc1, if_neg hc2]
        refine ⟨fun h => absurd h (by simp), ?_, ?_, ?_⟩
        · rw [heq, ihnone]
          constructor
          · intro hall i rowi hi
            rcases i with _ | i
            · rw [List.get?_cons_zero] at hi
              obtain rfl := Option.some.inj hi
              refine ⟨hc1, ?_⟩
              rw [List.drop_zero]
              exact hc2
            · rw [List.get?_cons_succ] at hi
              rw [List.drop_succ_cons]
              exact hall i rowi hi
          · intro hall i rowi hi
            have := hall (i + 1) rowi (by rw [List.get?_cons_succ]; exact hi)
            rw [List.drop_succ_cons] at this
            exact this
        · intro m h
          rw [heq] at h
          obtain ⟨i, rowi, hi, hm, hcc, hearlier⟩ := ih1 m h
          refine ⟨i + 1, rowi, by rw [List.get?_cons_succ]; exact hi, hm, hcc,
            ?_⟩
          intro j rowj hj hjget
          rcases j with _ | j
          · rw [List.get?_cons_zero] at hjget
            obtain rfl := Option.some.inj hjget
            exact not_lt.mp hc1
          · rw [List.get?_cons_succ] at hjget
            exact hearlier j rowj (by omega) hjget
        · intro m h
          rw [heq] at h
          obtain ⟨i, rowi, hi, hm, hcc, hearlier⟩ := ih2 m h
          refine ⟨i + 1, rowi, by rw [List.get?_cons_succ]; exact hi, hm, ?_,
            ?_⟩
          · rw [List.drop_succ_cons]
            exact hcc
          · intro j hj
            rcases j with _ | j
            · rw [List.drop_zero]
              exact hc2
            · rw [List.drop_succ_cons]
              exact hearlier j (by omega)

/-- Witness for C5: a two-row schedule where the second row is the first to
satisfy the monthly-interest-below-principal condition. -/
theorem find_critical_point_first_match_witness :
    find_critical_point [⟨1, 10, 2, 8, 90⟩, ⟨2, 10, 8, 2, 80⟩] =
      (some 2, some "monthly_interest_below_principal") ∧
    (∃ i row,
      ([⟨1, 10, 2, 8, 90⟩, ⟨2, 10, 8, 2, 80⟩] :
        List ScheduleRow).get? i = some row ∧
      row.month_index = 2 ∧ row.interest < row.principal ∧
      ∀ j rowj, j < i →
        ([⟨1, 10, 2, 8, 90⟩, ⟨2, 10, 8, 2, 80⟩] :
          List ScheduleRow).get? j = some rowj →
        rowj.principal ≤ rowj.interest) := by
  have heval : find_critical_point [⟨1, 10, 2, 8, 90⟩, ⟨2, 10, 8, 2, 80⟩] =
      (some 2, some "monthly_interest_below_principal") := by
    norm_num [find_critical_point, suffix_frac]
  exact ⟨heval,
    (find_critical_point_first_match
      [⟨1, 10, 2, 8, 90⟩, ⟨2, 10, 8, 2, 80⟩]).2.2.1 2 heval⟩

end Mortgage
